import Mathlib

/-!
Verification of the image-compression batch tool (scripts/compress_images.py).

The script is shallowly embedded: paths are component lists, the Pillow
codec is an environment of oracles (decode result, encoded byte size,
thumbnail dimensions), and each Python function becomes a Lean function
over that environment.  Machine effects (file writes, removals, copies)
are recorded as an explicit action trace.
-/

namespace Media

/-- A filesystem path, as its list of components (os.path.join is append). -/
abbrev FPath := List String

/-- Pillow color modes, per the Pillow documentation: the standard modes
1, L, P, RGB, RGBA, CMYK, YCbCr, LAB, HSV, I, F together with the
limited-support modes LA (L with alpha), PA (P with alpha),
RGBX (padded true color), RGBa and La (premultiplied alpha). -/
inductive ColorMode
  | one | L | LA | La | P | PA | RGB | RGBX | RGBA | RGBa
  | CMYK | YCbCr | LAB | HSV | I | F
deriving DecidableEq, Repr

/-- Whether a Pillow color mode carries an alpha channel.  Modelled from the
spec: the Codec Adapter is Pillow, whose documented alpha-carrying modes are
RGBA, LA, PA, RGBa and La. -/
def ColorMode.hasAlpha : ColorMode → Bool
  | .RGBA | .LA | .PA | .RGBa | .La => true
  | _ => false

/-- Whether a Pillow color mode is palette-mapped.  Modelled from the spec:
Pillow documents P (palette) and PA (palette with alpha) as palette modes. -/
def ColorMode.hasPalette : ColorMode → Bool
  | .P | .PA => true
  | _ => false

/-- The spec says the worker flattens any image whose color mode carries an
alpha or palette channel; this is that condition, written from the spec
wording (to be compared with the source condition, which tests membership
in the literal list RGBA, LA, P). -/
def carriesAlphaOrPalette (m : ColorMode) : Bool :=
  m.hasAlpha || m.hasPalette

/-- A decoded in-memory image: its color mode and pixel dimensions. -/
structure Image where
  mode : ColorMode
  width : Nat
  height : Nat
deriving DecidableEq, Repr

/-- PIL Image.convert: changes the color mode, keeps the pixel dimensions. -/
def Image.convert (img : Image) (m : ColorMode) : Image :=
  { img with mode := m }

/-- Oracle results of the external codec and filesystem for one task:
the outcome of Image.open (none models a decode exception), whether
img.save succeeds, the dimensions PIL thumbnail would produce, and the two
os.path.getsize measurements taken after the save. -/
structure CodecEnv where
  decoded : Option Image
  saveOk : Bool
  thumbSize : Image → Nat × Nat → Nat × Nat
  originalFileSize : Nat
  encodedSize : Nat

/-- PIL Image.thumbnail: downscales in place to fit max_size, preserving the
color mode; the exact output dimensions are the codec oracle thumbSize. -/
def Image.thumbnail (img : Image) (env : CodecEnv) (max_size : Nat × Nat) : Image :=
  let d := env.thumbSize img max_size
  { img with width := d.1, height := d.2 }

/-- The worker return value, the 5-tuple
(success, input_path, original_size, compressed_size, compression_ratio). -/
structure Outcome where
  success : Bool
  inputPath : FPath
  originalSize : Nat
  finalSize : Nat
  ratioPct : ℚ
deriving DecidableEq, Repr

/-- A recorded filesystem effect of one task: img.save, os.remove, or
shutil.copy2. -/
inductive FileAction
  | save (img : Image) (path : FPath) (quality : Nat)
  | remove (path : FPath)
  | copy (src dst : FPath)
deriving DecidableEq, Repr

/-- The image handed to img.save, after the two in-pipeline transformations
of compress_image: convert to RGB when the mode is RGBA, LA or P
(source line 37), then thumbnail when a dimension exceeds max_size
(source line 42). -/
def processedImage (env : CodecEnv) (img0 : Image) (max_size : Nat × Nat) : Image :=
  let img1 := if img0.mode = ColorMode.RGBA ∨ img0.mode = ColorMode.LA ∨ img0.mode = ColorMode.P
    then img0.convert ColorMode.RGB else img0
  if max_size.1 < img1.width ∨ max_size.2 < img1.height
    then img1.thumbnail env max_size else img1

/-- compress_image (source lines 23 to 90).  Returns the outcome tuple and
the trace of filesystem actions.  Exceptions (decode failure, save failure,
and the ZeroDivisionError of line 51 when the input file has size 0) land in
the except branch of line 87, which returns (False, input_path, 0, 0, 0). -/
def compress_image (env : CodecEnv) (input_path output_path : FPath)
    (quality : Nat) (max_size : Nat × Nat) (min_compression_pct : ℚ) :
    Outcome × List FileAction :=
  match env.decoded with
  | none => (⟨false, input_path, 0, 0, 0⟩, [])
  | some img0 =>
    let img2 := processedImage env img0 max_size
    if env.saveOk = false then (⟨false, input_path, 0, 0, 0⟩, [])
    else
      let saveAct := FileAction.save img2 output_path quality
      let original_file_size := env.originalFileSize
      let compressed_size := env.encodedSize
      if original_file_size = 0 then
        -- line 51 raises ZeroDivisionError, caught at line 87
        (⟨false, input_path, 0, 0, 0⟩, [saveAct])
      else
        let compressionPct : ℚ :=
          (1 - (compressed_size : ℚ) / (original_file_size : ℚ)) * 100
        if compressionPct ≤ min_compression_pct then
          (⟨true, input_path, original_file_size, original_file_size, 0⟩,
           [saveAct, FileAction.remove output_path,
            FileAction.copy input_path output_path])
        else
          (⟨true, input_path, original_file_size, compressed_size, compressionPct⟩,
           [saveAct])

/-- The images handed to img.save in a trace. -/
def savedImages (tr : List FileAction) : List Image :=
  tr.filterMap (fun a => match a with
    | .save i _ _ => some i
    | _ => none)

/-- The characters after the last dot of a name, none when there is no dot. -/
def afterLastDot : List Char → Option (List Char)
  | [] => none
  | c :: cs =>
    match afterLastDot cs with
    | some s => some s
    | none => if c = '.' then some cs else none

/-- pathlib Path.suffix: the extension of the final component, including the
dot; empty when the name has no dot, starts with its only dot, or ends with
the dot. -/
def pathSuffix (name : String) : String :=
  match afterLastDot name.toList with
  | none => ""
  | some s =>
    if s ≠ [] ∧ s.length + 1 < name.toList.length
      then String.mk ('.' :: s) else ""

/-- Python str.lower on the characters of a string: the source compares
lowercased extensions against an ASCII allow-list, and on ASCII letters
Python lowercasing is the per-character mapping below. -/
def lowerStr (s : String) : String :=
  String.mk (s.toList.map Char.toLower)

/-- The fixed extension allow-list of get_image_files (source line 94). -/
def image_extensions : List String :=
  [".jpg", ".jpeg", ".png", ".bmp", ".tiff", ".webp"]

/-- get_image_files (source lines 92 to 102).  The os.walk result is given
as a list of (directory, filenames) pairs in traversal order; a file is kept
when its lowercased suffix is in the allow-list, and joined onto its
directory. -/
def get_image_files (walk : List (FPath × List String)) : List FPath :=
  (walk.map (fun e =>
    (e.2.filter (fun f => image_extensions.contains (lowerStr (pathSuffix f)))).map
      (fun f => e.1 ++ [f]))).flatten

/-- The length of the longest common prefix of two component lists. -/
def commonPrefixLen : List String → List String → Nat
  | a :: as, b :: bs => if a = b then commonPrefixLen as bs + 1 else 0
  | _, _ => 0

/-- os.path.relpath on component lists: climb out of the part of start that
is not a common prefix, then descend into the rest of path. -/
def relpath (path start : List String) : List String :=
  let i := commonPrefixLen path start
  List.replicate (start.length - i) ".." ++ path.drop i

/-- The per-task output path of compress_images_concurrent (source lines
130 to 134): the input path itself in overwrite mode, otherwise output_dir
joined with the input path relative to the literal directory images. -/
def outputPathFor (output_dir image_path : FPath) (overwrite : Bool) : FPath :=
  if overwrite then image_path
  else output_dir ++ relpath image_path ["images"]

/-- Modelled from the spec: the output path as section 6 of the spec
describes it, output root joined with the input path taken relative to the
configured input root.  Stated for comparison with outputPathFor, which the
source computes against the literal directory images. -/
def specOutputPathFor (input_root output_dir image_path : FPath) : FPath :=
  output_dir ++ relpath image_path input_root

/-- How the collection loop (source lines 141 to 154) turns one completed
future into the stored result tuple: a successful worker tuple is kept with
the submission-side image path, a failed worker tuple or an exception from
future.result() is stored as (False, image_path, 0, 0, 0). -/
def entryOutcome : FPath × Except String Outcome → Outcome
  | (p, .ok o) =>
    if o.success then { o with inputPath := p } else ⟨false, p, 0, 0, 0⟩
  | (p, .error _) => ⟨false, p, 0, 0, 0⟩

/-- The by-size contribution of one completed future to total_original_size:
its original size when it succeeded, otherwise nothing (source line 147). -/
def origContribution (t : FPath × Except String Outcome) : Nat :=
  match t with
  | (_, .ok o) => if o.success then o.originalSize else 0
  | (_, .error _) => 0

/-- The contribution of one completed future to total_compressed_size
(source line 148). -/
def finalContribution (t : FPath × Except String Outcome) : Nat :=
  match t with
  | (_, .ok o) => if o.success then o.finalSize else 0
  | (_, .error _) => 0

/-- The collection loop of compress_images_concurrent (source lines 141 to
154), processing completed futures in the given order: accumulates the
results list and the two running byte totals, which only successful
outcomes feed. -/
def collectResults : List (FPath × Except String Outcome) →
    List Outcome × Nat × Nat
  | [] => ([], 0, 0)
  | t :: rest =>
    let r := entryOutcome t
    let acc := collectResults rest
    (r :: acc.1, origContribution t + acc.2.1, finalContribution t + acc.2.2)

/-- The submission loop of compress_images_concurrent (source lines 129 to
138): one task per discovered file, against the per-file codec environment;
since compress_image catches every exception, each future resolves to ok. -/
def submitTasks (env : FPath → CodecEnv) (image_files : List FPath)
    (output_dir : FPath) (quality : Nat) (max_size : Nat × Nat)
    (overwrite : Bool) (min_compression_pct : ℚ) :
    List (FPath × Except String Outcome) :=
  image_files.map (fun p =>
    (p, Except.ok (compress_image (env p) p (outputPathFor output_dir p overwrite)
      quality max_size min_compression_pct).1))

/-- compress_images_concurrent (source lines 104 to 156), given the order in
which as_completed yields the futures (any permutation of the submitted
tasks).  max_workers sizes the thread pool and does not enter the collected
results or totals. -/
def compress_images_concurrent
    (completionOrder : List (FPath × Except String Outcome))
    (max_workers : Nat) : List Outcome × Nat × Nat :=
  let _poolSize := max_workers
  collectResults completionOrder

/-- The run statistics main derives from the collected results (source lines
214 to 219, 225 to 226). -/
structure RunSummary where
  totalFiles : Nat
  successCount : Nat
  compressedCount : Nat
  skippedCount : Nat
  totalOriginal : Nat
  totalFinal : Nat
deriving DecidableEq, Repr

/-- Folds a coordinator result into the summary main prints. -/
def runSummary (r : List Outcome × Nat × Nat) : RunSummary where
  totalFiles := r.1.length
  successCount := r.1.countP (fun o => o.success)
  compressedCount := r.1.countP (fun o => o.success && decide (0 < o.ratioPct))
  skippedCount := r.1.countP (fun o => o.success && decide (o.ratioPct = 0))
  totalOriginal := r.2.1
  totalFinal := r.2.2

/-- The command-line arguments of main with their parsed types. -/
structure CliArgs where
  input : FPath
  output : FPath
  quality : Nat
  maxWidth : Nat
  maxHeight : Nat
  overwrite : Bool
  workers : Nat
  minCompressionPct : ℚ

/-- The filesystem and codec world main runs against: whether the input
directory exists, the os.walk listing below it, and the codec oracle for
each file. -/
structure FsEnv where
  inputExists : Bool
  walk : List (FPath × List String)
  perTask : FPath → CodecEnv

/-- What a run of main is observed to do: its exit code, whether it created
the output directory (source line 186), and how many tasks it submitted. -/
structure MainResult where
  exitCode : Nat
  outputDirCreated : Bool
  tasksScheduled : Nat
deriving DecidableEq, Repr

/-- main (source lines 158 to 241): missing input directory exits 1 before
the output directory is created or any task is submitted; an empty file list
exits 0; otherwise the concurrent run happens and main falls off the end,
exiting 0 whatever the individual outcomes were. -/
def main (fs : FsEnv) (args : CliArgs) : MainResult :=
  if fs.inputExists = false then ⟨1, false, 0⟩
  else
    let outputCreated := !args.overwrite
    let image_files := get_image_files fs.walk
    if image_files.isEmpty then ⟨0, outputCreated, 0⟩
    else
      let completed := submitTasks fs.perTask image_files args.output
        args.quality (args.maxWidth, args.maxHeight) args.overwrite
        args.minCompressionPct
      let _run := compress_images_concurrent completed args.workers
      ⟨0, outputCreated, image_files.length⟩

/-- A concrete codec oracle used by the witnesses: a small RGB image that
grows from 100 to 120 bytes when re-encoded. -/
def envGrow : CodecEnv :=
  ⟨some ⟨ColorMode.RGB, 10, 10⟩, true, fun _ m => m, 100, 120⟩

/-- A concrete codec oracle used by the witnesses: a small RGB image that
shrinks from 100 to 50 bytes when re-encoded. -/
def envShrink : CodecEnv :=
  ⟨some ⟨ColorMode.RGB, 10, 10⟩, true, fun _ m => m, 100, 50⟩

/-- A concrete codec oracle whose input file measures 0 bytes. -/
def envZero : CodecEnv :=
  ⟨some ⟨ColorMode.RGB, 10, 10⟩, true, fun _ m => m, 0, 50⟩

/-- A concrete codec oracle that decodes to an image in mode PA. -/
def envPA : CodecEnv :=
  ⟨some ⟨ColorMode.PA, 10, 10⟩, true, fun _ m => m, 100, 50⟩

/-- A concrete codec oracle whose decode step raises. -/
def envNoDecode : CodecEnv :=
  ⟨none, true, fun _ m => m, 100, 50⟩

/-- The default command-line arguments of main. -/
def argsDefault : CliArgs :=
  ⟨["images"], ["images", "compressed"], 85, 1920, 1080, false, 4, 0⟩

/-- A world whose input directory does not exist. -/
def fsMissing : FsEnv :=
  ⟨false, [], fun _ => envShrink⟩

/-- A world whose input directory exists but holds no image file. -/
def fsEmptyDir : FsEnv :=
  ⟨true, [(["images"], ["notes.txt"])], fun _ => envShrink⟩

/-- Two concrete discovered files, used by the order-invariance witness. -/
def twoFiles : List FPath :=
  [["images", "a.jpg"], ["images", "b.jpg"]]

/-- The submitted tasks over the two concrete files. -/
def twoTasks : List (FPath × Except String Outcome) :=
  submitTasks (fun _ => envShrink) twoFiles ["out"] 85 (1920, 1080) false 0

/-- C1: when the computed compression ratio is at most the configured
threshold, the worker removes the just-written output, copies the original
bytes to the output path, and returns success with final size equal to the
original size and ratio 0. -/
theorem threshold_reject_keeps_original
    (env : CodecEnv) (input_path output_path : FPath) (quality : Nat)
    (max_size : Nat × Nat) (minPct : ℚ) (img : Image)
    (hdec : env.decoded = some img) (hsave : env.saveOk = true)
    (hpos : 0 < env.originalFileSize)
    (hratio : (1 - (env.encodedSize : ℚ) / (env.originalFileSize : ℚ)) * 100 ≤ minPct) :
    compress_image env input_path output_path quality max_size minPct =
      (⟨true, input_path, env.originalFileSize, env.originalFileSize, 0⟩,
       [FileAction.save (processedImage env img max_size) output_path quality,
        FileAction.remove output_path,
        FileAction.copy input_path output_path]) := by
  unfold compress_image
  rw [hdec, hsave]
  simp [Nat.pos_iff_ne_zero.mp hpos, hratio]

/-- Witness for C1: the rejection branch on the concrete growing file. -/
theorem threshold_reject_keeps_original_witness :
    compress_image envGrow ["a.jpg"] ["out", "a.jpg"] 85 (1920, 1080) 0 =
      (⟨true, ["a.jpg"], 100, 100, 0⟩,
       [FileAction.save (processedImage envGrow ⟨ColorMode.RGB, 10, 10⟩ (1920, 1080))
          ["out", "a.jpg"] 85,
        FileAction.remove ["out", "a.jpg"],
        FileAction.copy ["a.jpg"] ["out", "a.jpg"]]) :=
  threshold_reject_keeps_original envGrow ["a.jpg"] ["out", "a.jpg"] 85
    (1920, 1080) 0 ⟨ColorMode.RGB, 10, 10⟩ rfl rfl (by norm_num [envGrow])
    (by norm_num [envGrow])

/-- C7: when the compression is accepted, the reported outcome carries the
measured sizes and the exact ratio (1 - final / original) * 100. -/
theorem accepted_ratio_formula
    (env : CodecEnv) (input_path output_path : FPath) (quality : Nat)
    (max_size : Nat × Nat) (minPct : ℚ) (img : Image)
    (hdec : env.decoded = some img) (hsave : env.saveOk = true)
    (hpos : 0 < env.originalFileSize)
    (hratio : minPct < (1 - (env.encodedSize : ℚ) / (env.originalFileSize : ℚ)) * 100) :
    (compress_image env input_path output_path quality max_size minPct).1 =
      ⟨true, input_path, env.originalFileSize, env.encodedSize,
        (1 - (env.encodedSize : ℚ) / (env.originalFileSize : ℚ)) * 100⟩ := by
  unfold compress_image
  rw [hdec, hsave]
  simp [Nat.pos_iff_ne_zero.mp hpos, not_le.mpr hratio]

/-- Witness for C7: the accepted branch on the concrete shrinking file
reports ratio 50. -/
theorem accepted_ratio_formula_witness :
    (compress_image envShrink ["a.jpg"] ["out", "a.jpg"] 85 (1920, 1080) 0).1 =
      ⟨true, ["a.jpg"], 100, 50,
        (1 - (50 : ℚ) / (100 : ℚ)) * 100⟩ :=
  accepted_ratio_formula envShrink ["a.jpg"] ["out", "a.jpg"] 85 (1920, 1080) 0
    ⟨ColorMode.RGB, 10, 10⟩ rfl rfl (by norm_num [envShrink])
    (by norm_num [envShrink])

/-- C10: when the input file measures 0 bytes, the ratio computation would
divide by zero; the resulting exception is caught at the task boundary and
the worker returns a failed outcome with all sizes and ratio 0, and the
coordinator collects it as a failure instead of crashing. -/
theorem zero_size_input_fails_safely
    (env : CodecEnv) (input_path output_path : FPath) (quality : Nat)
    (max_size : Nat × Nat) (minPct : ℚ) (img : Image)
    (hdec : env.decoded = some img) (hsave : env.saveOk = true)
    (hzero : env.originalFileSize = 0) :
    (compress_image env input_path output_path quality max_size minPct).1 =
      ⟨false, input_path, 0, 0, 0⟩ ∧
    (compress_images_concurrent
        [(input_path,
          Except.ok (compress_image env input_path output_path quality max_size minPct).1)]
        4).1 =
      [⟨false, input_path, 0, 0, 0⟩] := by
  have h1 : (compress_image env input_path output_path quality max_size minPct).1 =
      ⟨false, input_path, 0, 0, 0⟩ := by
    unfold compress_image
    rw [hdec, hsave]
    simp [hzero]
  refine ⟨h1, ?_⟩
  simp [compress_images_concurrent, collectResults, entryOutcome, h1]

/-- Witness for C10: the concrete zero-byte input yields the failed outcome. -/
theorem zero_size_input_fails_safely_witness :
    (compress_image envZero ["a.jpg"] ["out", "a.jpg"] 85 (1920, 1080) 0).1 =
      ⟨false, ["a.jpg"], 0, 0, 0⟩ :=
  (zero_size_input_fails_safely envZero ["a.jpg"] ["out", "a.jpg"] 85
    (1920, 1080) 0 ⟨ColorMode.RGB, 10, 10⟩ rfl rfl rfl).1

/-- Every image a task hands to img.save is the processed form of the
decoded image: converted when the mode asks for it, then resized. -/
theorem mem_savedImages_processed
    (env : CodecEnv) (input_path output_path : FPath) (quality : Nat)
    (max_size : Nat × Nat) (minPct : ℚ) (img : Image)
    (hdec : env.decoded = some img) :
    ∀ i ∈ savedImages
        (compress_image env input_path output_path quality max_size minPct).2,
      i = processedImage env img max_size := by
  intro i hi
  unfold compress_image at hi
  rw [hdec] at hi
  by_cases h1 : env.saveOk = false
  · simp [h1, savedImages] at hi
  · by_cases h2 : env.originalFileSize = 0
    · simp [h1, h2, savedImages] at hi
      exact hi
    · by_cases h3 : (1 - (env.encodedSize : ℚ) / (env.originalFileSize : ℚ)) * 100 ≤ minPct
      · simp [h1, h2, h3, savedImages] at hi
        exact hi
      · simp [h1, h2, h3, savedImages] at hi
        exact hi

/-- C9 counterexample: an image decoded in mode PA carries both an alpha and
a palette channel, yet the worker encodes it unconverted: the image handed
to img.save still has mode PA, not RGB.  The source only converts the modes
RGBA, LA and P. -/
theorem pa_mode_not_flattened :
    carriesAlphaOrPalette ColorMode.PA = true ∧
    savedImages (compress_image envPA ["a.png"] ["out", "a.png"] 85 (1920, 1080) 0).2 =
      [⟨ColorMode.PA, 10, 10⟩] ∧
    ColorMode.PA ≠ ColorMode.RGB := by
  refine ⟨rfl, ?_, by simp⟩
  have htr : (compress_image envPA ["a.png"] ["out", "a.png"] 85 (1920, 1080) 0).2 =
      [FileAction.save ⟨ColorMode.PA, 10, 10⟩ ["out", "a.png"] 85] := by
    simp [compress_image, processedImage, envPA]
    norm_num
  rw [htr]
  rfl

/-- C9 amended: every decoded image whose mode is RGBA, LA or P is converted
to RGB before the resize and encode steps: the processed image is RGB, and
so is every image the task hands to img.save. -/
theorem rgba_la_p_flattened_to_rgb
    (env : CodecEnv) (input_path output_path : FPath) (quality : Nat)
    (max_size : Nat × Nat) (minPct : ℚ) (img : Image)
    (hdec : env.decoded = some img)
    (hmode : img.mode = ColorMode.RGBA ∨ img.mode = ColorMode.LA ∨
      img.mode = ColorMode.P) :
    (processedImage env img max_size).mode = ColorMode.RGB ∧
    ∀ i ∈ savedImages
        (compress_image env input_path output_path quality max_size minPct).2,
      i.mode = ColorMode.RGB := by
  have hproc : (processedImage env img max_size).mode = ColorMode.RGB := by
    unfold processedImage
    rw [if_pos hmode]
    dsimp only [Image.convert, Image.thumbnail]
    split <;> rfl
  refine ⟨hproc, fun i hi => ?_⟩
  have hsub := mem_savedImages_processed env input_path output_path quality
    max_size minPct img hdec i hi
  rw [hsub, hproc]

/-- Witness for C9 amended: a concrete RGBA image is encoded as RGB. -/
theorem rgba_la_p_flattened_to_rgb_witness :
    (processedImage
        ⟨some ⟨ColorMode.RGBA, 10, 10⟩, true, fun _ m => m, 100, 50⟩
        ⟨ColorMode.RGBA, 10, 10⟩ (1920, 1080)).mode = ColorMode.RGB :=
  (rgba_la_p_flattened_to_rgb
    ⟨some ⟨ColorMode.RGBA, 10, 10⟩, true, fun _ m => m, 100, 50⟩
    ["a.png"] ["out", "a.png"] 85 (1920, 1080) 0 ⟨ColorMode.RGBA, 10, 10⟩
    rfl (Or.inl rfl)).1

/-- The collected results list is the completed futures mapped through the
collection rule, one stored result per completed task, in completion order. -/
theorem collectResults_results (l : List (FPath × Except String Outcome)) :
    (collectResults l).1 = l.map entryOutcome := by
  induction l with
  | nil => rfl
  | cons t rest ih => simp [collectResults, ih]

/-- The running original-bytes total is the sum of the per-future
contributions. -/
theorem collectResults_totalOriginal (l : List (FPath × Except String Outcome)) :
    (collectResults l).2.1 = (l.map origContribution).sum := by
  induction l with
  | nil => rfl
  | cons t rest ih => simp [collectResults, ih]

/-- The running compressed-bytes total is the sum of the per-future
contributions. -/
theorem collectResults_totalFinal (l : List (FPath × Except String Outcome)) :
    (collectResults l).2.2 = (l.map finalContribution).sum := by
  induction l with
  | nil => rfl
  | cons t rest ih => simp [collectResults, ih]

/-- Summing original sizes over the successful stored results equals summing
the per-future original-bytes contributions. -/
theorem sum_filter_orig (l : List (FPath × Except String Outcome)) :
    (((l.map entryOutcome).filter (fun o => o.success)).map
      (fun o => o.originalSize)).sum = (l.map origContribution).sum := by
  induction l with
  | nil => rfl
  | cons t rest ih =>
    rcases t with ⟨p, e⟩
    cases e with
    | error s => simpa [entryOutcome, origContribution] using ih
    | ok o =>
      by_cases hs : o.success
      · simpa [entryOutcome, origContribution, hs] using ih
      · simpa [entryOutcome, origContribution, hs] using ih

/-- Summing final sizes over the successful stored results equals summing
the per-future compressed-bytes contributions. -/
theorem sum_filter_final (l : List (FPath × Except String Outcome)) :
    (((l.map entryOutcome).filter (fun o => o.success)).map
      (fun o => o.finalSize)).sum = (l.map finalContribution).sum := by
  induction l with
  | nil => rfl
  | cons t rest ih =>
    rcases t with ⟨p, e⟩
    cases e with
    | error s => simpa [entryOutcome, finalContribution] using ih
    | ok o =>
      by_cases hs : o.success
      · simpa [entryOutcome, finalContribution, hs] using ih
      · simpa [entryOutcome, finalContribution, hs] using ih

/-- C3: the coordinator totals are exactly the sums of the per-outcome
original and final sizes over the successful outcomes; failed outcomes
contribute nothing. -/
theorem totals_sum_over_successes
    (completed : List (FPath × Except String Outcome)) (w : Nat) :
    (compress_images_concurrent completed w).2.1 =
      ((((compress_images_concurrent completed w).1).filter
        (fun o => o.success)).map (fun o => o.originalSize)).sum ∧
    (compress_images_concurrent completed w).2.2 =
      ((((compress_images_concurrent completed w).1).filter
        (fun o => o.success)).map (fun o => o.finalSize)).sum := by
  unfold compress_images_concurrent
  constructor
  · rw [collectResults_totalOriginal, collectResults_results, sum_filter_orig]
  · rw [collectResults_totalFinal, collectResults_results, sum_filter_final]

/-- C2: a worker-level exception (decode failure, save failure, or the
division by zero on an empty input file) is caught inside the worker and
becomes a failed outcome with all sizes and ratio 0; and whatever each
future delivers, the coordinator stores exactly one result per completed
task, so no failure prevents the rest from being collected. -/
theorem worker_errors_isolated :
    (∀ (env : CodecEnv) (input_path output_path : FPath) (quality : Nat)
        (max_size : Nat × Nat) (minPct : ℚ),
      env.decoded = none ∨ env.saveOk = false ∨ env.originalFileSize = 0 →
        (compress_image env input_path output_path quality max_size minPct).1 =
          ⟨false, input_path, 0, 0, 0⟩) ∧
    (∀ (completed : List (FPath × Except String Outcome)) (w : Nat),
      (compress_images_concurrent completed w).1 = completed.map entryOutcome) := by
  constructor
  · intro env input_path output_path quality max_size minPct h
    unfold compress_image
    rcases hd : env.decoded with _ | i
    · rfl
    · by_cases hs : env.saveOk = false
      · simp [hs]
      · rcases h with h | h | h
        · rw [hd] at h; cases h
        · exact absurd h hs
        · simp [hs, h]
  · intro completed w
    exact collectResults_results completed

/-- Witness for C2: a decode failure on a concrete task yields the failed
outcome. -/
theorem worker_errors_isolated_witness :
    (compress_image envNoDecode ["a.jpg"] ["out", "a.jpg"] 85 (1920, 1080) 0).1 =
      ⟨false, ["a.jpg"], 0, 0, 0⟩ :=
  worker_errors_isolated.1 envNoDecode ["a.jpg"] ["out", "a.jpg"] 85
    (1920, 1080) 0 (Or.inl rfl)

/-- C4: discovery keeps a walked file exactly when its lowercased extension
is on the allow-list; concretely, A.JPG is kept while b.txt and c.gif are
not. -/
theorem discovery_iff_allowed_extension :
    (∀ (walk : List (FPath × List String)) (p : FPath),
      p ∈ get_image_files walk ↔
        ∃ e ∈ walk, ∃ f ∈ e.2,
          image_extensions.contains (lowerStr (pathSuffix f)) = true ∧
          p = e.1 ++ [f]) ∧
    get_image_files [(["d"], ["A.JPG", "b.txt", "c.gif"])] = [["d", "A.JPG"]] := by
  constructor
  · intro walk p
    unfold get_image_files
    constructor
    · intro h
      rw [List.mem_flatten] at h
      obtain ⟨l, hl, hp⟩ := h
      rw [List.mem_map] at hl
      obtain ⟨e, he, rfl⟩ := hl
      rw [List.mem_map] at hp
      obtain ⟨f, hf, rfl⟩ := hp
      rw [List.mem_filter] at hf
      exact ⟨e, he, f, hf.1, hf.2, rfl⟩
    · rintro ⟨e, he, f, hf, hext, rfl⟩
      rw [List.mem_flatten]
      exact ⟨_, List.mem_map_of_mem _ he,
        List.mem_map_of_mem _ (List.mem_filter.mpr ⟨hf, hext⟩)⟩
  · decide

/-- C5 counterexample: with input root photos, the source computes the
output path against the literal directory images, not the configured input
root: the file photos/a.jpg lands at out/../photos/a.jpg instead of
out/a.jpg, so the output tree does not mirror the input tree relative to
the configured root. -/
theorem output_path_not_relative_to_input_root :
    outputPathFor ["out"] ["photos", "a.jpg"] false =
      ["out", "..", "photos", "a.jpg"] ∧
    specOutputPathFor ["photos"] ["out"] ["photos", "a.jpg"] = ["out", "a.jpg"] ∧
    outputPathFor ["out"] ["photos", "a.jpg"] false ≠
      specOutputPathFor ["photos"] ["out"] ["photos", "a.jpg"] := by
  refine ⟨rfl, rfl, by decide⟩

/-- A component list shares no prefix with the empty list. -/
theorem commonPrefixLen_nil (l : List String) : commonPrefixLen l [] = 0 := by
  cases l <;> rfl

/-- C5 amended: when overwrite is off the output path is the output root
joined with the input path taken relative to the literal directory images;
hence the output tree mirrors the input tree exactly when the input root is
images. -/
theorem output_path_mirrors_images_root
    (output_dir : FPath) (rest : List String) (p : FPath) :
    outputPathFor output_dir (["images"] ++ rest) false = output_dir ++ rest ∧
    outputPathFor output_dir p false = specOutputPathFor ["images"] output_dir p := by
  constructor
  · unfold outputPathFor relpath
    simp [commonPrefixLen, commonPrefixLen_nil]
  · rfl

/-- The run summary of collected results is invariant under permuting the
completion order. -/
theorem runSummary_perm (l1 l2 : List (FPath × Except String Outcome))
    (hp : l1.Perm l2) :
    runSummary (collectResults l1) = runSummary (collectResults l2) := by
  have hm : (l1.map entryOutcome).Perm (l2.map entryOutcome) := hp.map _
  simp only [runSummary, collectResults_results, collectResults_totalOriginal,
    collectResults_totalFinal, RunSummary.mk.injEq]
  exact ⟨hm.length_eq, List.Perm.countP_eq _ hm, List.Perm.countP_eq _ hm,
    List.Perm.countP_eq _ hm, (hp.map origContribution).sum_eq,
    (hp.map finalContribution).sum_eq⟩

/-- C8: for the same discovered files and parameters, any two completion
orders of the submitted tasks, collected with any two pool sizes, give the
same run summary: total files, success count, compressed and skipped
counts, and both byte totals. -/
theorem summary_order_and_workers_invariant
    (env : FPath → CodecEnv) (image_files : List FPath) (output_dir : FPath)
    (quality : Nat) (max_size : Nat × Nat) (overwrite : Bool) (minPct : ℚ)
    (ord1 ord2 : List (FPath × Except String Outcome)) (w1 w2 : Nat)
    (h1 : ord1.Perm
      (submitTasks env image_files output_dir quality max_size overwrite minPct))
    (h2 : ord2.Perm
      (submitTasks env image_files output_dir quality max_size overwrite minPct)) :
    runSummary (compress_images_concurrent ord1 w1) =
      runSummary (compress_images_concurrent ord2 w2) :=
  runSummary_perm ord1 ord2 (h1.trans h2.symm)

/-- Witness for C8: the two concrete tasks collected in submission order
with one worker and in reverse order with eight workers summarize alike. -/
theorem summary_order_and_workers_invariant_witness :
    runSummary (compress_images_concurrent twoTasks 1) =
      runSummary (compress_images_concurrent twoTasks.reverse 8) :=
  summary_order_and_workers_invariant (fun _ => envShrink) twoFiles ["out"] 85
    (1920, 1080) false 0 twoTasks twoTasks.reverse 1 8 (List.Perm.refl _)
    (List.reverse_perm _)

/-- C6: a missing input directory exits with code 1 before the output
directory is created or any task is submitted; an existing input directory
with no matching file exits 0; and an existing input directory always exits
0, whatever the per-file outcomes. -/
theorem exit_code_policy :
    (∀ (fs : FsEnv) (args : CliArgs), fs.inputExists = false →
      main fs args = ⟨1, false, 0⟩) ∧
    (∀ (fs : FsEnv) (args : CliArgs), fs.inputExists = true →
      get_image_files fs.walk = [] → (main fs args).exitCode = 0) ∧
    (∀ (fs : FsEnv) (args : CliArgs), fs.inputExists = true →
      (main fs args).exitCode = 0) := by
  refine ⟨?_, ?_, ?_⟩
  · intro fs args h
    simp [main, h]
  · intro fs args h he
    simp [main, h, he]
  · intro fs args h
    unfold main
    rw [h]
    simp only [Bool.true_eq_false, if_false]
    split <;> rfl

/-- Witness for C6: the missing-directory world exits 1 with nothing
created, and the empty-directory world exits 0. -/
theorem exit_code_policy_witness :
    main fsMissing argsDefault = ⟨1, false, 0⟩ ∧
    (main fsEmptyDir argsDefault).exitCode = 0 :=
  ⟨exit_code_policy.1 fsMissing argsDefault rfl,
   exit_code_policy.2.2 fsEmptyDir argsDefault rfl⟩

end Media
